import Mathlib

set_option maxRecDepth 8000

/-
Shallow embedding of cloud/smartos/smartos_image.py (Ansible module
"smartos_image").  External processes are modelled by an oracle `Env`
giving the (rc, stdout, stderr) of the n-th command invocation; every
invocation is recorded in a trace.  Python's `json.loads` is modelled by
an executable JSON parser; `re.match` on the module's anchored UUID
pattern is modelled exactly (including the Python semantics of `$`,
which also matches just before one trailing newline).
-/

namespace SmartosImage

/-- JSON values as produced by Python's `json.loads`.  Numeric literals
are kept as their source lexeme (the module never computes with them,
it only passes manifests through). -/
inductive Json where
  | null
  | bool (b : Bool)
  | num (lexeme : String)
  | str (s : String)
  | arr (elems : List Json)
  | obj (members : List (String × Json))
deriving Repr

/-- Whitespace skipping as in the JSON grammar. -/
def skipWs : List Char → List Char
  | c :: cs => if c = ' ' ∨ c = '\t' ∨ c = '\n' ∨ c = '\r' then skipWs cs else c :: cs
  | [] => []

/-- Hex digit value of a character, if any. -/
def hexVal (c : Char) : Option Nat :=
  if '0' ≤ c ∧ c ≤ '9' then some (c.toNat - '0'.toNat)
  else if 'a' ≤ c ∧ c ≤ 'f' then some (c.toNat - 'a'.toNat + 10)
  else if 'A' ≤ c ∧ c ≤ 'F' then some (c.toNat - 'A'.toNat + 10)
  else none

/-- Body of a JSON string after the opening quote; fuel-bounded.
Handles the standard escapes and `\uXXXX` (surrogate pairs are not
combined; no input in this development uses them). -/
def parseStringBody : Nat → List Char → Option (String × List Char)
  | 0, _ => none
  | _ + 1, [] => none
  | fuel + 1, c :: cs =>
    if c = '"' then some ("", cs)
    else if c = '\\' then
      match cs with
      | [] => none
      | e :: cs2 =>
        if e = 'u' then
          match cs2 with
          | h1 :: h2 :: h3 :: h4 :: cs3 =>
            match hexVal h1, hexVal h2, hexVal h3, hexVal h4 with
            | some a, some b, some c3, some d =>
              match parseStringBody fuel cs3 with
              | some (rest, rem) =>
                some (String.mk (Char.ofNat (((a * 16 + b) * 16 + c3) * 16 + d) :: rest.data), rem)
              | none => none
            | _, _, _, _ => none
          | _ => none
        else
          let ec : Option Char :=
            if e = '"' then some '"'
            else if e = '\\' then some '\\'
            else if e = '/' then some '/'
            else if e = 'b' then some (Char.ofNat 8)
            else if e = 'f' then some (Char.ofNat 12)
            else if e = 'n' then some '\n'
            else if e = 'r' then some '\r'
            else if e = 't' then some '\t'
            else none
          match ec with
          | some ch =>
            match parseStringBody fuel cs2 with
            | some (rest, rem) => some (String.mk (ch :: rest.data), rem)
            | none => none
          | none => none
    else
      match parseStringBody fuel cs with
      | some (rest, rem) => some (String.mk (c :: rest.data), rem)
      | none => none

/-- Decimal digit test. -/
def isDigitCh (c : Char) : Bool := '0' ≤ c ∧ c ≤ '9'

/-- Consume one or more decimal digits. -/
def takeDigits : List Char → (List Char × List Char)
  | c :: cs =>
    if isDigitCh c then
      let (ds, rest) := takeDigits cs
      (c :: ds, rest)
    else ([], c :: cs)
  | [] => ([], [])

/-- JSON number lexeme: `-? (0 | [1-9][0-9]*) (. [0-9]+)? ([eE][+-]?[0-9]+)?`. -/
def parseNumLex (cs : List Char) : Option (String × List Char) :=
  let (sign, cs1) :=
    match cs with
    | '-' :: rest => (['-'], rest)
    | _ => (([] : List Char), cs)
  match cs1 with
  | c :: cs2 =>
    if c = '0' then
      let intPart := sign ++ [c]
      parseNumTail intPart cs2
    else if isDigitCh c then
      let (ds, cs3) := takeDigits cs2
      parseNumTail (sign ++ c :: ds) cs3
    else none
  | [] => none
where
  parseNumTail (acc : List Char) (cs : List Char) : Option (String × List Char) :=
    let (acc1, cs1) :=
      match cs with
      | '.' :: c :: rest =>
        if isDigitCh c then
          let (ds, r) := takeDigits rest
          (acc ++ '.' :: c :: ds, r)
        else (acc, cs)
      | _ => (acc, cs)
    match cs1 with
    | e :: rest =>
      if e = 'e' ∨ e = 'E' then
        match rest with
        | s :: c :: r2 =>
          if (s = '+' ∨ s = '-') ∧ isDigitCh c then
            let (ds, r3) := takeDigits r2
            some (String.mk (acc1 ++ e :: s :: c :: ds), r3)
          else if isDigitCh s then
            let (ds, r3) := takeDigits (c :: r2)
            some (String.mk (acc1 ++ e :: s :: ds), r3)
          else none
        | [s] =>
          if isDigitCh s then some (String.mk (acc1 ++ [e, s]), [])
          else none
        | [] => none
      else some (String.mk acc1, cs1)
    | [] => some (String.mk acc1, [])

mutual

/-- Parse one JSON value (fuel-bounded recursive descent). -/
def parseValue : Nat → List Char → Option (Json × List Char)
  | 0, _ => none
  | fuel + 1, cs =>
    match skipWs cs with
    | 'n' :: 'u' :: 'l' :: 'l' :: rest => some (.null, rest)
    | 't' :: 'r' :: 'u' :: 'e' :: rest => some (.bool true, rest)
    | 'f' :: 'a' :: 'l' :: 's' :: 'e' :: rest => some (.bool false, rest)
    | '"' :: rest =>
      match parseStringBody (fuel + 1) rest with
      | some (s, rem) => some (.str s, rem)
      | none => none
    | '[' :: rest =>
      match skipWs rest with
      | ']' :: rem => some (.arr [], rem)
      | _ =>
        match parseElems fuel rest with
        | some (es, rem) => some (.arr es, rem)
        | none => none
    | '\x7b' :: rest =>
      match skipWs rest with
      | '\x7d' :: rem => some (.obj [], rem)
      | _ =>
        match parseMembers fuel rest with
        | some (ms, rem) => some (.obj ms, rem)
        | none => none
    | other => parseNumLex other |>.map fun (lx, rem) => (.num lx, rem)

/-- Parse the elements of a non-empty JSON array (after `[`). -/
def parseElems : Nat → List Char → Option (List Json × List Char)
  | 0, _ => none
  | fuel + 1, cs =>
    match parseValue fuel cs with
    | none => none
    | some (v, rest) =>
      match skipWs rest with
      | ',' :: r2 =>
        match parseElems fuel r2 with
        | some (vs, rem) => some (v :: vs, rem)
        | none => none
      | ']' :: r2 => some ([v], r2)
      | _ => none

/-- Parse the members of a non-empty JSON object (after the brace). -/
def parseMembers : Nat → List Char → Option (List (String × Json) × List Char)
  | 0, _ => none
  | fuel + 1, cs =>
    match skipWs cs with
    | '"' :: rest =>
      match parseStringBody (fuel + 1) rest with
      | none => none
      | some (k, r1) =>
        match skipWs r1 with
        | ':' :: r2 =>
          match parseValue fuel r2 with
          | none => none
          | some (v, r3) =>
            match skipWs r3 with
            | ',' :: r4 =>
              match parseMembers fuel r4 with
              | some (ms, rem) => some ((k, v) :: ms, rem)
              | none => none
            | '\x7d' :: r4 => some ([(k, v)], r4)
            | _ => none
        | _ => none
    | _ => none

end

/-- Model of Python's `json.loads`: parse a complete document, allowing
surrounding whitespace.  `none` models the ValueError raised on invalid
input. -/
def json_loads (s : String) : Option Json :=
  match parseValue (2 * s.length + 2) s.data with
  | some (v, rest) => if skipWs rest = [] then some v else none
  | none => none

/-- Subscripting `doc[key]` on a parsed JSON document, Python-style:
returns the value under `key` when `doc` is an object containing it
(later duplicates win, as in a Python dict), `none` when the key is
missing or `doc` is not an object (KeyError / TypeError). -/
def Json.getKey (j : Json) (k : String) : Option Json :=
  match j with
  | .obj kvs => kvs.foldl (fun acc kv => if kv.1 = k then some kv.2 else acc) none
  | _ => none

mutual

/-- Python `repr` of a value decoded from JSON (approximation sufficient
for the module's message formatting; string escaping is not modelled). -/
def pyRepr : Json → String
  | .null => "None"
  | .bool true => "True"
  | .bool false => "False"
  | .num lx => lx
  | .str s => "'" ++ s ++ "'"
  | .arr xs => "[" ++ pyReprElems xs ++ "]"
  | .obj kvs => "\x7b" ++ pyReprMembers kvs ++ "\x7d"

def pyReprElems : List Json → String
  | [] => ""
  | [x] => pyRepr x
  | x :: xs => pyRepr x ++ ", " ++ pyReprElems xs

def pyReprMembers : List (String × Json) → String
  | [] => ""
  | [(k, v)] => "'" ++ k ++ "': " ++ pyRepr v
  | (k, v) :: kvs => "'" ++ k ++ "': " ++ pyRepr v ++ ", " ++ pyReprMembers kvs

end

/-- Python `str` (as used by `'%s' % value`) of a value decoded from
JSON: the string itself for strings, `repr`-style otherwise. -/
def pyStr : Json → String
  | .str s => s
  | v => pyRepr v

/-!
The module's UUID validation:
`UUID_REGEX = r'^[a-f0-9]{8}-([a-f0-9]{4}-){3}[a-f0-9]{12}$'`, checked
with `re.match(UUID_REGEX, uuid)`.
-/

/-- Character class `[a-f0-9]` of the module's UUID regex. -/
def isLowerHex (c : Char) : Bool := ('a' ≤ c ∧ c ≤ 'f') ∨ ('0' ≤ c ∧ c ≤ '9')

/-- Consume exactly `n` characters of class `[a-f0-9]`, returning the
remainder. -/
def hexRun : Nat → List Char → Option (List Char)
  | 0, cs => some cs
  | _ + 1, [] => none
  | n + 1, c :: cs => if isLowerHex c then hexRun n cs else none

/-- Consume one `-`. -/
def dashThen : List Char → Option (List Char)
  | '-' :: cs => some cs
  | _ => none

/-- Consume the body of the module's UUID regex
(`[a-f0-9]{8}-([a-f0-9]{4}-){3}[a-f0-9]{12}`), returning the remaining
characters. -/
def uuidBody (cs : List Char) : Option (List Char) :=
  hexRun 8 cs >>= dashThen >>= hexRun 4 >>= dashThen >>=
    hexRun 4 >>= dashThen >>= hexRun 4 >>= dashThen >>= hexRun 12

/-- Full-string match of the canonical hyphenated 32-hex-digit UUID
pattern `^[0-9a-f]{8}-([0-9a-f]{4}-){3}[0-9a-f]{12}$` (the pattern as
the spec reads it: `$` = end of string). -/
def canonicalUuidMatch (s : String) : Bool :=
  uuidBody s.data = some []

/-- Python `re.match(UUID_REGEX, s) is not None`.  Without `re.MULTILINE`,
`$` matches at the end of the string or just before one trailing
newline, so the regex also accepts a canonical UUID followed by a
single `\n`. -/
def pyMatchAnchored (s : String) : Bool :=
  match uuidBody s.data with
  | some [] => true
  | some ['\n'] => true
  | _ => false

/-!
Execution model.  `module.run_command` is modelled by an oracle giving
the `(rc, stdout, stderr)` of the n-th invocation; the argv of every
invocation is recorded in order.  `module.get_bin_path('imgadm', True)`
and `...('zpool', True)` are modelled as returning the tool names.
-/

/-- Result of one `module.run_command` call: `(rc, stdout, stderr)`. -/
structure CmdResult where
  rc : Int
  out : String
  err : String
deriving Repr, DecidableEq

/-- Oracle for the external world: result of the n-th command run. -/
structure Env where
  results : Nat → CmdResult

/-- Execution trace: the argv lists of the commands run so far, in
order. -/
structure ExecSt where
  calls : List (List String)
deriving Repr, DecidableEq

/-- `module.run_command(cmd)`: consult the oracle at the current
invocation index and record the argv. -/
def run_command (env : Env) (cmd : List String) (s : ExecSt) : CmdResult × ExecSt :=
  (env.results s.calls.length, ⟨s.calls ++ [cmd]⟩)

/-- The `IMAGE` object (class `IMAGE`, `__init__`).  `update` is the
instance attribute `self.update = module.params['update']`; in Python
it shadows the class's `update` method. -/
structure IMAGE where
  uuid : String
  state : String
  zpool : String
  update : Bool
  manifest : Json
deriving Repr

/-- argv of `imgadm info [-P zpool] uuid` (method `is_local`); the
`-P` flag is added when `self.zpool` is truthy (non-empty). -/
def infoCmd (zpool uuid : String) : List String :=
  ["imgadm", "info"] ++ (if zpool ≠ "" then ["-P", zpool] else []) ++ [uuid]

/-- argv of `zpool list zpool` (method `zpool_exists`). -/
def zpoolListCmd (zpool : String) : List String :=
  ["zpool", "list", zpool]

/-- argv of `imgadm import [-P zpool] uuid` (method `import_image`). -/
def importCmd (zpool uuid : String) : List String :=
  ["imgadm", "import"] ++ (if zpool ≠ "" then ["-P", zpool] else []) ++ [uuid]

/-- argv of `imgadm delete [-P zpool] uuid` (method `delete`). -/
def deleteCmd (zpool uuid : String) : List String :=
  ["imgadm", "delete"] ++ (if zpool ≠ "" then ["-P", zpool] else []) ++ [uuid]

/-- argv of `imgadm update uuid` — built by the class's `update` method,
which is unreachable through an `IMAGE` instance because the `update`
attribute set in `__init__` shadows it. -/
def updateCmd (uuid : String) : List String :=
  ["imgadm", "update", uuid]

/-- Commands that mutate the host's image store. -/
def isMutating (cmd : List String) : Bool :=
  cmd[1]? == some "import" || cmd[1]? == some "update" || cmd[1]? == some "delete"

/-- Method `has_valid_uuid`: `re.match(UUID_REGEX, self.uuid) is not
None`. -/
def IMAGE.has_valid_uuid (img : IMAGE) : Bool :=
  pyMatchAnchored img.uuid

/-- Method `is_local`: run `imgadm info`; on rc 0 set `self.manifest =
json.loads(info)['manifest']` and return True, else return False.
`.error` models the uncaught Python exception when the output is not
valid JSON (ValueError) or has no `'manifest'` entry
(KeyError/TypeError). -/
def IMAGE.is_local (env : Env) (img : IMAGE) (s : ExecSt) :
    (Except String (Bool × IMAGE)) × ExecSt :=
  let rs := run_command env (infoCmd img.zpool img.uuid) s
  if rs.1.rc = 0 then
    match json_loads rs.1.out with
    | none => (.error "ValueError: no JSON object could be decoded", rs.2)
    | some doc =>
      match doc.getKey "manifest" with
      | none => (.error "KeyError or TypeError: manifest", rs.2)
      | some m => (.ok (true, { img with manifest := m }), rs.2)
  else
    (.ok (false, img), rs.2)

/-- Method `zpool_exists`: run `zpool list self.zpool`, return
`rc == 0`. -/
def IMAGE.zpool_exists (env : Env) (img : IMAGE) (s : ExecSt) : Bool × ExecSt :=
  let rs := run_command env (zpoolListCmd img.zpool) s
  (rs.1.rc == 0, rs.2)

/-- Method `import_image`: run `imgadm import`, return its
`(rc, stdout, stderr)`. -/
def IMAGE.import_image (env : Env) (img : IMAGE) (s : ExecSt) : CmdResult × ExecSt :=
  run_command env (importCmd img.zpool img.uuid) s

/-- Method `delete`: run `imgadm delete`, return its
`(rc, stdout, stderr)`. -/
def IMAGE.delete (env : Env) (img : IMAGE) (s : ExecSt) : CmdResult × ExecSt :=
  run_command env (deleteCmd img.zpool img.uuid) s

/-!
The `main()` function.  Module parameters arrive after AnsibleModule's
defaulting and coercion (`state` default `'present'`, `zpool` default
`'zones'`, `update` coerced to bool, default False); `check_mode` is the
framework's check/dry-run flag (`supports_check_mode=True`).
-/

/-- The module parameters as seen by `main()`. -/
structure Params where
  uuid : String
  state : String
  zpool : String
  update : Bool
deriving Repr

/-- Keyword arguments of a `module.fail_json` call.  All five call
sites in `main()` pass `msg`, `uuid` and `zpool`; only the import and
delete failure sites also pass `rc`, `stderr` and `stdout`. -/
structure FailResult where
  msg : String
  uuid : String
  zpool : String
  rc : Option Int
  stderr : Option String
  stdout : Option String
deriving Repr, DecidableEq

/-- The `result` dict as passed to `module.exit_json` at the end of
`main()`: `changed`, `stdout`, `stderr`, `uuid`, `state`, `zpool`
always, `manifest` only when it was put there. -/
structure ExitResult where
  changed : Bool
  stdout : String
  stderr : String
  uuid : String
  state : String
  zpool : String
  manifest : Option Json
deriving Repr

/-- How one invocation of `main()` ends: `exit_json(**result)`,
`fail_json(...)`, an uncaught Python exception, or AnsibleModule
rejecting the parameters (`state` outside its `choices`). -/
inductive Outcome where
  | exited (r : ExitResult)
  | failed (f : FailResult)
  | pyError (msg : String)
  | paramError (msg : String)
deriving Repr

/-- The exit record of a completed run, if any. -/
def Outcome.resultOf : Outcome → Option ExitResult
  | .exited r => some r
  | _ => none

/-- The local state of `main()` between its sections: the `IMAGE`
object, `result['changed']`, the optional `result['manifest']` entry,
and the locals `out`, `err`. -/
structure Locals where
  image : IMAGE
  changed : Bool
  manifestField : Option Json
  out : String
  err : String
deriving Repr

/-- Message of the uncaught exception on the update path:
`image.update` is the Bool attribute set in `__init__`, so the call
expression `image.update()` raises TypeError. -/
def typeErrMsg : String := "TypeError: bool object is not callable"

/-- `json.loads('{ "faked": "True", "reason": "check_mode" }')` from
the check-mode import branch. -/
def fakedManifest : Json :=
  (json_loads "\x7b \"faked\": \"True\", \"reason\": \"check_mode\" \x7d").getD Json.null

/-- `'Image "%s" was not found on zpool "%s".' % (uuid, zpool)`. -/
def notFoundMsg (uuid zpool : String) : String :=
  "Image \"" ++ uuid ++ "\" was not found on zpool \"" ++ zpool ++ "\"."

/-- `'Image %s (%s) is already installed, skipping.' % (uuid, name)`. -/
def alreadyInstalledMsg (uuid : String) (nm : Json) : String :=
  "Image " ++ uuid ++ " (" ++ pyStr nm ++ ") is already installed, skipping."

/-- An early termination of a state section: a `fail_json` call or an
uncaught Python exception. -/
inductive Abort where
  | failJson (f : FailResult)
  | pyExc (msg : String)
deriving Repr, DecidableEq

/-- How an early termination surfaces. -/
def Abort.toOutcome : Abort → Outcome
  | .failJson f => .failed f
  | .pyExc m => .pyError m

/-- The `state: present` section of `main()` (lines 217-245).
`.error` carries an early termination (`fail_json` or an uncaught
exception), `.ok` the updated locals. -/
def presentBlock (env : Env) (check_mode : Bool) (l : Locals) (s : ExecSt) :
    Except (Abort × ExecSt) (Locals × ExecSt) :=
  if l.image.state = "present" then
    if check_mode then
      let il := IMAGE.is_local env l.image s
      match il.1 with
      | .error e => .error (.pyExc e, il.2)
      | .ok (true, img) =>
        match img.manifest.getKey "name" with
        | none => .error (.pyExc "KeyError or TypeError: name", il.2)
        | some nm => .ok ({ l with image := img, out := alreadyInstalledMsg img.uuid nm }, il.2)
      | .ok (false, img) =>
        .ok ({ l with image := img, changed := true, manifestField := some fakedManifest, out := "have to download image" }, il.2)
    else
      let rs := IMAGE.import_image env l.image s
      if rs.1.rc ≠ 0 then
        .error (.failJson ⟨"Error importing image!", l.image.uuid, l.image.zpool,
                some rs.1.rc, some rs.1.err, some rs.1.out⟩, rs.2)
      else if l.image.update then
        -- `image.update()` evaluates the Bool attribute and calls it:
        -- TypeError, before any `imgadm update` command can run
        .error (.pyExc typeErrMsg, rs.2)
      else
        .ok ({ l with out := rs.1.out, err := rs.1.err }, rs.2)
  else
    .ok (l, s)

/-- The `state: absent` section of `main()` (lines 249-264). -/
def absentBlock (env : Env) (check_mode : Bool) (l : Locals) (s : ExecSt) :
    Except (Abort × ExecSt) (Locals × ExecSt) :=
  if l.image.state = "absent" then
    let il := IMAGE.is_local env l.image s
    match il.1 with
    | .error e => .error (.pyExc e, il.2)
    | .ok (true, img) =>
      let l1 := { l with image := img, changed := true }
      if check_mode = false then
        let rs := IMAGE.delete env img il.2
        if rs.1.rc ≠ 0 then
          .error (.failJson ⟨"Error deleting image!", img.uuid, img.zpool,
                  some rs.1.rc, some rs.1.err, some rs.1.out⟩, rs.2)
        else
          .ok ({ l1 with out := rs.1.out, err := rs.1.err }, rs.2)
      else
        .ok (l1, il.2)
    | .ok (false, img) =>
      .ok ({ l with image := img, out := notFoundMsg img.uuid img.zpool }, il.2)
  else
    .ok (l, s)

/-- The final section of `main()` (lines 266-276): set
`result['stdout'/'stderr'/'uuid'/'state'/'zpool']`, re-probe with
`image.is_local()` and overwrite `result['manifest']` only when the
image is present now, then `exit_json(**result)`. -/
def finalize (env : Env) (l : Locals) (s : ExecSt) : Outcome × ExecSt :=
  let il := IMAGE.is_local env l.image s
  match il.1 with
  | .error e => (.pyError e, il.2)
  | .ok (present, img) =>
    (.exited ⟨l.changed, l.out, l.err, img.uuid, img.state, img.zpool,
      if present then some img.manifest else l.manifestField⟩, il.2)

/-- `main()`: AnsibleModule parameter validation, `IMAGE(module)`,
UUID check, zpool check, the two state sections, finalization. -/
def main_run (env : Env) (p : Params) (check_mode : Bool) : Outcome × ExecSt :=
  let s0 : ExecSt := ⟨[]⟩
  if p.state ≠ "present" ∧ p.state ≠ "absent" then
    (.paramError "value of state must be one of: present,absent", s0)
  else
    let image : IMAGE := ⟨p.uuid, p.state, p.zpool, p.update, Json.str "init"⟩
    let l0 : Locals := ⟨image, false, none, "", ""⟩
    if image.has_valid_uuid = false then
      (.failed ⟨"Invalid image UUID.", image.uuid, image.zpool, none, none, none⟩, s0)
    else
      let ze := IMAGE.zpool_exists env image s0
      if ze.1 = false then
        (.failed ⟨"zpool is not available.", image.uuid, image.zpool, none, none, none⟩, ze.2)
      else
        match presentBlock env check_mode l0 ze.2 with
        | .error (a, sa) => (a.toOutcome, sa)
        | .ok (l2, s2) =>
          match absentBlock env check_mode l2 s2 with
          | .error (a, sa) => (a.toOutcome, sa)
          | .ok (l3, s3) => finalize env l3 s3

/-!
Helper lemmas: behaviour of each piece of `main()`, shared by the claim
theorems below.
-/

/-- `is_local` always records exactly one `imgadm info` invocation. -/
theorem is_local_snd (env : Env) (img : IMAGE) (s : ExecSt) :
    (IMAGE.is_local env img s).2 = ⟨s.calls ++ [infoCmd img.zpool img.uuid]⟩ := by
  unfold IMAGE.is_local run_command
  dsimp only
  repeat' split
  all_goals rfl

/-- `is_local` when the probe reports a non-zero exit. -/
theorem is_local_absent_eq (env : Env) (img : IMAGE) (s : ExecSt)
    (h : (env.results s.calls.length).rc ≠ 0) :
    IMAGE.is_local env img s =
      (.ok (false, img), ⟨s.calls ++ [infoCmd img.zpool img.uuid]⟩) := by
  unfold IMAGE.is_local run_command
  simp [h]

/-- `is_local` when the probe exits 0 with a well-formed document. -/
theorem is_local_present_eq (env : Env) (img : IMAGE) (s : ExecSt) (doc m : Json)
    (h0 : (env.results s.calls.length).rc = 0)
    (h1 : json_loads (env.results s.calls.length).out = some doc)
    (h2 : doc.getKey "manifest" = some m) :
    IMAGE.is_local env img s =
      (.ok (true, { img with manifest := m }), ⟨s.calls ++ [infoCmd img.zpool img.uuid]⟩) := by
  unfold IMAGE.is_local run_command
  simp [h0, h1, h2]

/-- Inversion: a normal `is_local` return preserves every field of the
image except the manifest, and returns True exactly when the probe
exited 0. -/
theorem is_local_ok_inv (env : Env) (img : IMAGE) (s : ExecSt) (b : Bool) (img' : IMAGE)
    (h : (IMAGE.is_local env img s).1 = .ok (b, img')) :
    img'.uuid = img.uuid ∧ img'.state = img.state ∧ img'.zpool = img.zpool ∧
      img'.update = img.update ∧
      (b = true ↔ (env.results s.calls.length).rc = 0) := by
  unfold IMAGE.is_local run_command at h
  dsimp only at h
  repeat' split at h
  · exact absurd h (by simp)
  · exact absurd h (by simp)
  · injection h with h2
    injection h2 with hb hi
    subst hb; subst hi
    simp_all
  · injection h with h2
    injection h2 with hb hi
    subst hb; subst hi
    simp_all

theorem is_local_true_manifest (env : Env) (img : IMAGE) (s : ExecSt) (img' : IMAGE)
    (h : (IMAGE.is_local env img s).1 = .ok (true, img')) :
    ∃ doc m, json_loads (env.results s.calls.length).out = some doc ∧
      doc.getKey "manifest" = some m ∧ img'.manifest = m := by
  unfold IMAGE.is_local run_command at h
  dsimp only at h
  by_cases hrc : (env.results s.calls.length).rc = 0
  · rw [if_pos hrc] at h
    rcases hjs : json_loads (env.results s.calls.length).out with _ | doc
    · rw [hjs] at h; exact absurd h (by simp)
    · rw [hjs] at h
      dsimp only at h
      rcases hm : doc.getKey "manifest" with _ | m
      · rw [hm] at h; exact absurd h (by simp)
      · rw [hm] at h
        dsimp only at h
        injection h with h2
        injection h2 with hb hi
        subst hi
        exact ⟨doc, m, by simp [hjs], hm, rfl⟩
  · rw [if_neg hrc] at h
    exact absurd h (by simp)

theorem pb_skip (env : Env) (check : Bool) (l : Locals) (s : ExecSt)
    (h : l.image.state ≠ "present") :
    presentBlock env check l s = .ok (l, s) := by
  unfold presentBlock
  simp [h]

theorem ab_skip (env : Env) (check : Bool) (l : Locals) (s : ExecSt)
    (h : l.image.state ≠ "absent") :
    absentBlock env check l s = .ok (l, s) := by
  unfold absentBlock
  simp [h]

theorem pb_ok_inv (env : Env) (check : Bool) (l : Locals) (s : ExecSt) (l' : Locals)
    (s' : ExecSt) (h : presentBlock env check l s = .ok (l', s')) :
    l'.image.uuid = l.image.uuid ∧ l'.image.state = l.image.state ∧
      l'.image.zpool = l.image.zpool ∧ l'.image.update = l.image.update ∧
      (l'.changed = true ↔ (l.changed = true ∨
        (check = true ∧ l.image.state = "present" ∧ (env.results s.calls.length).rc ≠ 0))) := by
  unfold presentBlock at h
  dsimp only at h
  by_cases hst : l.image.state = "present"
  · rw [if_pos hst] at h
    by_cases hck : check = true
    · rw [if_pos hck] at h
      rcases hil : (IMAGE.is_local env l.image s).1 with e | ⟨b, img⟩
      · rw [hil] at h; exact absurd h (by simp)
      · rw [hil] at h
        have hinv := is_local_ok_inv env l.image s b img hil
        cases b
        · dsimp only at h
          injection h with h2
          obtain ⟨rfl, rfl⟩ := Prod.mk.inj h2
          simp_all
        · dsimp only at h
          rcases hnm : img.manifest.getKey "name" with _ | nm
          · rw [hnm] at h; exact absurd h (by simp)
          · rw [hnm] at h
            injection h with h2
            obtain ⟨rfl, rfl⟩ := Prod.mk.inj h2
            simp_all
    · rw [if_neg hck] at h
      try dsimp only at h
      by_cases hrc : (IMAGE.import_image env l.image s).1.rc ≠ 0
      · rw [if_pos hrc] at h; exact absurd h (by simp)
      · rw [if_neg hrc] at h
        by_cases hup : l.image.update = true
        · rw [if_pos hup] at h; exact absurd h (by simp)
        · rw [if_neg hup] at h
          injection h with h2
          obtain ⟨rfl, rfl⟩ := Prod.mk.inj h2
          simp_all
  · rw [if_neg hst] at h
    injection h with h2
    obtain ⟨rfl, rfl⟩ := Prod.mk.inj h2
    simp_all

theorem ab_ok_inv (env : Env) (check : Bool) (l : Locals) (s : ExecSt) (l' : Locals)
    (s' : ExecSt) (h : absentBlock env check l s = .ok (l', s')) :
    l'.image.uuid = l.image.uuid ∧ l'.image.state = l.image.state ∧
      l'.image.zpool = l.image.zpool ∧ l'.image.update = l.image.update ∧
      (l'.changed = true ↔ (l.changed = true ∨
        (l.image.state = "absent" ∧ (env.results s.calls.length).rc = 0))) := by
  unfold absentBlock at h
  dsimp only at h
  by_cases hst : l.image.state = "absent"
  · rw [if_pos hst] at h
    rcases hil : (IMAGE.is_local env l.image s).1 with e | ⟨b, img⟩
    · rw [hil] at h; exact absurd h (by simp)
    · rw [hil] at h
      have hinv := is_local_ok_inv env l.image s b img hil
      cases b
      · dsimp only at h
        injection h with h2
        obtain ⟨rfl, rfl⟩ := Prod.mk.inj h2
        simp_all
      · dsimp only at h
        by_cases hck : check = false
        · rw [if_pos hck] at h
          by_cases hrc : (IMAGE.delete env img (IMAGE.is_local env l.image s).2).1.rc ≠ 0
          · rw [if_pos hrc] at h; exact absurd h (by simp)
          · rw [if_neg hrc] at h
            injection h with h2
            obtain ⟨rfl, rfl⟩ := Prod.mk.inj h2
            simp_all
        · rw [if_neg hck] at h
          injection h with h2
          obtain ⟨rfl, rfl⟩ := Prod.mk.inj h2
          simp_all
  · rw [if_neg hst] at h
    injection h with h2
    obtain ⟨rfl, rfl⟩ := Prod.mk.inj h2
    simp_all

theorem pb_fail_inv (env : Env) (check : Bool) (l : Locals) (s : ExecSt) (f : FailResult)
    (sa : ExecSt) (h : presentBlock env check l s = .error (.failJson f, sa)) :
    f.msg = "Error importing image!" ∧ f.uuid = l.image.uuid ∧ f.zpool = l.image.zpool ∧
      f.rc.isSome = true ∧ f.stderr.isSome = true ∧ f.stdout.isSome = true := by
  unfold presentBlock at h
  dsimp only at h
  by_cases hst : l.image.state = "present"
  · rw [if_pos hst] at h
    by_cases hck : check = true
    · rw [if_pos hck] at h
      rcases hil : (IMAGE.is_local env l.image s).1 with e | ⟨b, img⟩
      · rw [hil] at h; exact absurd h (by simp)
      · rw [hil] at h
        cases b
        · dsimp only at h; exact absurd h (by simp)
        · dsimp only at h
          rcases hnm : img.manifest.getKey "name" with _ | nm
          · rw [hnm] at h; exact absurd h (by simp)
          · rw [hnm] at h; exact absurd h (by simp)
    · rw [if_neg hck] at h
      by_cases hrc : (IMAGE.import_image env l.image s).1.rc ≠ 0
      · rw [if_pos hrc] at h
        injection h with h2
        obtain ⟨hf, rfl⟩ := Prod.mk.inj h2
        injection hf with hf2
        subst hf2
        simp
      · rw [if_neg hrc] at h
        by_cases hup : l.image.update = true
        · rw [if_pos hup] at h; exact absurd h (by simp)
        · rw [if_neg hup] at h; exact absurd h (by simp)
  · rw [if_neg hst] at h; exact absurd h (by simp)

theorem ab_fail_inv (env : Env) (check : Bool) (l : Locals) (s : ExecSt) (f : FailResult)
    (sa : ExecSt) (h : absentBlock env check l s = .error (.failJson f, sa)) :
    f.msg = "Error deleting image!" ∧ f.uuid = l.image.uuid ∧ f.zpool = l.image.zpool ∧
      f.rc.isSome = true ∧ f.stderr.isSome = true ∧ f.stdout.isSome = true := by
  unfold absentBlock at h
  dsimp only at h
  by_cases hst : l.image.state = "absent"
  · rw [if_pos hst] at h
    rcases hil : (IMAGE.is_local env l.image s).1 with e | ⟨b, img⟩
    · rw [hil] at h; exact absurd h (by simp)
    · rw [hil] at h
      have hinv := is_local_ok_inv env l.image s b img hil
      cases b
      · dsimp only at h; exact absurd h (by simp)
      · dsimp only at h
        by_cases hck : check = false
        · rw [if_pos hck] at h
          by_cases hrc : (IMAGE.delete env img (IMAGE.is_local env l.image s).2).1.rc ≠ 0
          · rw [if_pos hrc] at h
            injection h with h2
            obtain ⟨hf, rfl⟩ := Prod.mk.inj h2
            injection hf with hf2
            subst hf2
            simp_all
          · rw [if_neg hrc] at h; exact absurd h (by simp)
        · rw [if_neg hck] at h; exact absurd h (by simp)
  · rw [if_neg hst] at h; exact absurd h (by simp)

theorem fin_exited_inv (env : Env) (l : Locals) (s : ExecSt) (r : ExitResult) (s' : ExecSt)
    (h : finalize env l s = (.exited r, s')) :
    r.changed = l.changed ∧ r.stdout = l.out ∧ r.stderr = l.err ∧
      r.uuid = l.image.uuid ∧ r.state = l.image.state ∧ r.zpool = l.image.zpool ∧
      s' = ⟨s.calls ++ [infoCmd l.image.zpool l.image.uuid]⟩ ∧
      ((env.results s.calls.length).rc ≠ 0 → r.manifest = l.manifestField) := by
  unfold finalize at h
  dsimp only at h
  rcases hil : (IMAGE.is_local env l.image s).1 with e | ⟨b, img⟩
  · rw [hil] at h; exact absurd h (by simp)
  · rw [hil] at h
    dsimp only at h
    have hinv := is_local_ok_inv env l.image s b img hil
    have hsnd := is_local_snd env l.image s
    obtain ⟨hr, rfl⟩ := Prod.mk.inj h
    injection hr with hr2
    subst hr2
    refine ⟨rfl, rfl, rfl, hinv.1, hinv.2.1, hinv.2.2.1, hsnd, ?_⟩
    intro hrc
    have hb : b = false := by
      cases b
      · rfl
      · exact absurd (hinv.2.2.2.2.mp rfl) hrc
    subst hb
    simp

theorem fin_present_manifest (env : Env) (l : Locals) (s : ExecSt) (r : ExitResult)
    (s' : ExecSt) (h : finalize env l s = (.exited r, s'))
    (hrc : (env.results s.calls.length).rc = 0) :
    ∃ doc m, json_loads (env.results s.calls.length).out = some doc ∧
      doc.getKey "manifest" = some m ∧ r.manifest = some m := by
  unfold finalize at h
  dsimp only at h
  rcases hil : (IMAGE.is_local env l.image s).1 with e | ⟨b, img⟩
  · rw [hil] at h; exact absurd h (by simp)
  · rw [hil] at h
    dsimp only at h
    have hinv := is_local_ok_inv env l.image s b img hil
    have hb : b = true := hinv.2.2.2.2.mpr hrc
    subst hb
    obtain ⟨doc, m, h1, h2, h3⟩ := is_local_true_manifest env l.image s img hil
    obtain ⟨hr, rfl⟩ := Prod.mk.inj h
    injection hr with hr2
    subst hr2
    exact ⟨doc, m, h1, h2, by simp [h3]⟩

theorem fin_no_fail (env : Env) (l : Locals) (s : ExecSt) (f : FailResult) (s' : ExecSt) :
    finalize env l s ≠ (.failed f, s') := by
  unfold finalize
  dsimp only
  intro h
  rcases hil : (IMAGE.is_local env l.image s).1 with e | ⟨b, img⟩
  · rw [hil] at h; exact absurd h (by simp)
  · rw [hil] at h; exact absurd h (by simp)

def initLocals (p : Params) : Locals :=
  ⟨⟨p.uuid, p.state, p.zpool, p.update, Json.str "init"⟩, false, none, "", ""⟩

theorem main_exited_inv (env : Env) (p : Params) (check : Bool) (r : ExitResult) (s : ExecSt)
    (h : main_run env p check = (.exited r, s)) :
    (p.state = "present" ∨ p.state = "absent") ∧
      pyMatchAnchored p.uuid = true ∧
      (env.results 0).rc = 0 ∧
      ∃ l2 s2 l3 s3,
        presentBlock env check (initLocals p) ⟨[zpoolListCmd p.zpool]⟩ = .ok (l2, s2) ∧
        absentBlock env check l2 s2 = .ok (l3, s3) ∧
        finalize env l3 s3 = (.exited r, s) := by
  unfold main_run IMAGE.has_valid_uuid IMAGE.zpool_exists run_command at h
  dsimp only at h
  simp only [List.length_nil, List.nil_append] at h
  by_cases hvs : p.state ≠ "present" ∧ p.state ≠ "absent"
  · rw [if_pos hvs] at h; exact absurd h (by simp)
  · rw [if_neg hvs] at h
    by_cases hu : pyMatchAnchored p.uuid = false
    · rw [if_pos hu] at h; exact absurd h (by simp)
    · rw [if_neg hu] at h
      by_cases hz : ((env.results 0).rc == 0) = false
      · rw [if_pos hz] at h; exact absurd h (by simp)
      · rw [if_neg hz] at h
        rcases hpb : presentBlock env check ⟨⟨p.uuid, p.state, p.zpool, p.update, Json.str "init"⟩, false, none, "", ""⟩ ⟨[zpoolListCmd p.zpool]⟩ with ⟨a, sa⟩ | ⟨l2, s2⟩
        · rw [hpb] at h
          cases a <;> simp [Abort.toOutcome] at h
        · rw [hpb] at h
          dsimp only at h
          rcases hab : absentBlock env check l2 s2 with ⟨a, sa⟩ | ⟨l3, s3⟩
          · rw [hab] at h
            cases a <;> simp [Abort.toOutcome] at h
          · rw [hab] at h
            refine ⟨by tauto, ?_, ?_, l2, s2, l3, s3, hpb, hab, h⟩
            · cases hb : pyMatchAnchored p.uuid
              · exact absurd hb hu
              · rfl
            · simpa using hz

theorem main_failed_inv (env : Env) (p : Params) (check : Bool) (f : FailResult) (s : ExecSt)
    (h : main_run env p check = (.failed f, s)) :
    f = ⟨"Invalid image UUID.", p.uuid, p.zpool, none, none, none⟩ ∨
      f = ⟨"zpool is not available.", p.uuid, p.zpool, none, none, none⟩ ∨
      (∃ sa, presentBlock env check (initLocals p) ⟨[zpoolListCmd p.zpool]⟩ =
        .error (.failJson f, sa)) ∨
      (∃ l2 s2 sa, presentBlock env check (initLocals p) ⟨[zpoolListCmd p.zpool]⟩ =
        .ok (l2, s2) ∧ absentBlock env check l2 s2 = .error (.failJson f, sa)) := by
  unfold main_run IMAGE.has_valid_uuid IMAGE.zpool_exists run_command at h
  dsimp only at h
  simp only [List.length_nil, List.nil_append] at h
  by_cases hvs : p.state ≠ "present" ∧ p.state ≠ "absent"
  · rw [if_pos hvs] at h; exact absurd h (by simp)
  · rw [if_neg hvs] at h
    by_cases hu : pyMatchAnchored p.uuid = false
    · rw [if_pos hu] at h
      obtain ⟨hf, rfl⟩ := Prod.mk.inj h
      injection hf with hf2
      exact Or.inl hf2.symm
    · rw [if_neg hu] at h
      by_cases hz : ((env.results 0).rc == 0) = false
      · rw [if_pos hz] at h
        obtain ⟨hf, rfl⟩ := Prod.mk.inj h
        injection hf with hf2
        exact Or.inr (Or.inl hf2.symm)
      · rw [if_neg hz] at h
        rcases hpb : presentBlock env check ⟨⟨p.uuid, p.state, p.zpool, p.update, Json.str "init"⟩, false, none, "", ""⟩ ⟨[zpoolListCmd p.zpool]⟩ with ⟨a, sa⟩ | ⟨l2, s2⟩
        · rw [hpb] at h
          dsimp only at h
          cases a with
          | failJson f2 =>
            simp only [Abort.toOutcome] at h
            obtain ⟨hf, rfl⟩ := Prod.mk.inj h
            injection hf with hf2
            subst hf2
            exact Or.inr (Or.inr (Or.inl ⟨sa, hpb⟩))
          | pyExc m => simp [Abort.toOutcome] at h
        · rw [hpb] at h
          dsimp only at h
          rcases hab : absentBlock env check l2 s2 with ⟨a, sa⟩ | ⟨l3, s3⟩
          · rw [hab] at h
            dsimp only at h
            cases a with
            | failJson f2 =>
              simp only [Abort.toOutcome] at h
              obtain ⟨hf, rfl⟩ := Prod.mk.inj h
              injection hf with hf2
              subst hf2
              exact Or.inr (Or.inr (Or.inr ⟨l2, s2, sa, hpb, hab⟩))
            | pyExc m => simp [Abort.toOutcome] at h
          · rw [hab] at h
            dsimp only at h
            exact absurd h (fin_no_fail env l3 s3 f s)

/-!
Concrete fixtures used by witnesses and counterexamples.
-/

/-- The UUID of the spec's concrete scenario. -/
def uuid0 : String := "d183f500-9a96-11e6-8976-ff3967dc023a"

/-- An `imgadm info` stdout document with a manifest. -/
def manifestOut : String := "\x7b\"manifest\": \x7b\"name\": \"debian-8\"\x7d\x7d"

/-- The manifest inside `manifestOut`. -/
def manifestVal : Json := Json.obj [("name", Json.str "debian-8")]

/-- World: the pool exists, the import succeeds, afterwards the image
is present with `manifestOut`. -/
def envImport : Env :=
  ⟨fun n => if n = 0 then ⟨0, "", ""⟩
    else if n = 1 then ⟨0, "imported-ok", ""⟩
    else ⟨0, manifestOut, ""⟩⟩

/-- World: the pool exists and the image is never present. -/
def envAbsent : Env :=
  ⟨fun n => if n = 0 then ⟨0, "", ""⟩ else ⟨1, "", "image not found"⟩⟩

/-- World: the pool exists and the image is always present. -/
def envPresent : Env :=
  ⟨fun n => if n = 0 then ⟨0, "", ""⟩ else ⟨0, manifestOut, ""⟩⟩

/-- World: the `zpool list` query fails with exit 1 and diagnostic
output on stderr. -/
def envPoolFail : Env := ⟨fun _ => ⟨1, "", "cannot open pool"⟩⟩

/-- C1: the claim says that with state=present in normal mode, after a
successful import with the update flag set, the update operation is
invoked and the run fails with UpdateFailed exactly on its non-zero
exit.  The code cannot do this: `self.update = module.params['update']`
in `__init__` shadows the `update` method, so `image.update()` raises
an uncaught TypeError, the `imgadm update` command is never run, and
the UpdateFailed branch (lines 238-245) is unreachable.  This theorem
evaluates the model at the failing input: valid uuid, pool present,
an import exiting 0, update=True — the run dies with the TypeError and no
`imgadm update` argv appears in the trace. -/
theorem c1_update_type_error :
    main_run envImport ⟨uuid0, "present", "zones", true⟩ false =
      (.pyError typeErrMsg, ⟨[zpoolListCmd "zones", importCmd "zones" uuid0]⟩) ∧
    updateCmd uuid0 ∉ [zpoolListCmd "zones", importCmd "zones" uuid0] :=
  ⟨rfl, by decide⟩

/-- C2: in the spec's concrete scenario (uuid d183f500-..., zpool
zones, state=present, update=false, normal mode, image absent, import
exit 0) the claim requires changed=true.  The code never sets
`result['changed']` in the normal-mode present branch, so the run
exits with changed=false — while uuid, zpool and the manifest (from
the post-import info probe) are as claimed.  This theorem evaluates
the model at exactly that scenario. -/
theorem c2_import_reports_unchanged :
    main_run envImport ⟨uuid0, "present", "zones", false⟩ false =
      (.exited ⟨false, "imported-ok", "", uuid0, "present", "zones", some manifestVal⟩,
       ⟨[zpoolListCmd "zones", importCmd "zones" uuid0, infoCmd "zones" uuid0]⟩) := rfl


/-- C3 counterexample: the string uuid0 ++ "\n" does not match the
canonical pattern `^[0-9a-f]{8}-([0-9a-f]{4}-){3}[0-9a-f]{12}$` as a
full-string match, yet the reconciler does not fail with InvalidInput:
it runs the pool query and both info probes (nonempty trace) and exits
normally, because Python's `re.match` lets `$` match before one
trailing newline. -/
theorem c3_counterexample :
    canonicalUuidMatch (uuid0 ++ "\n") = false ∧
    main_run envAbsent ⟨uuid0 ++ "\n", "absent", "zones", false⟩ false =
      (.exited ⟨false, notFoundMsg (uuid0 ++ "\n") "zones", "", uuid0 ++ "\n", "absent",
        "zones", none⟩,
       ⟨[zpoolListCmd "zones", infoCmd "zones" (uuid0 ++ "\n"),
         infoCmd "zones" (uuid0 ++ "\n")]⟩) :=
  ⟨by decide, rfl⟩

/-- C3 amended: for every input string rejected by Python's
`re.match` against the module's anchored UUID pattern — i.e. every
string that is not a canonical UUID optionally followed by one
trailing newline — the reconciler fails with InvalidInput (msg
"Invalid image UUID." carrying uuid and zpool) before any external
invocation (the recorded trace is empty). -/
theorem c3_amended_thm (env : Env) (p : Params) (check : Bool)
    (hstate : p.state = "present" ∨ p.state = "absent")
    (hu : pyMatchAnchored p.uuid = false) :
    main_run env p check =
      (.failed ⟨"Invalid image UUID.", p.uuid, p.zpool, none, none, none⟩, ⟨[]⟩) := by
  unfold main_run IMAGE.has_valid_uuid
  dsimp only
  rw [if_neg (by rcases hstate with h | h <;> simp [h])]
  rw [if_pos hu]

/-- Witness for C3 amended at the concrete input "not-a-uuid". -/
theorem c3_amended_witness :
    pyMatchAnchored "not-a-uuid" = false ∧
    main_run envAbsent ⟨"not-a-uuid", "present", "zones", false⟩ false =
      (.failed ⟨"Invalid image UUID.", "not-a-uuid", "zones", none, none, none⟩, ⟨[]⟩) :=
  ⟨by decide,
   c3_amended_thm envAbsent ⟨"not-a-uuid", "present", "zones", false⟩ false
     (Or.inl rfl) (by decide)⟩

/-- C4: for every request with a valid uuid, if the `zpool list`
query exits non-zero the reconciler fails with PoolNotFound (msg
"zpool is not available.") regardless of the desired state, and the
trace holds exactly the pool query — no image-level (imgadm)
invocation was made. -/
theorem c4_pool_not_found (env : Env) (p : Params) (check : Bool)
    (hstate : p.state = "present" ∨ p.state = "absent")
    (hu : pyMatchAnchored p.uuid = true)
    (hz : (env.results 0).rc ≠ 0) :
    main_run env p check =
      (.failed ⟨"zpool is not available.", p.uuid, p.zpool, none, none, none⟩,
       ⟨[zpoolListCmd p.zpool]⟩) := by
  unfold main_run IMAGE.has_valid_uuid IMAGE.zpool_exists run_command
  dsimp only
  simp only [List.length_nil, List.nil_append]
  rw [if_neg (by rcases hstate with h | h <;> simp [h])]
  rw [if_neg (by simp [hu])]
  rw [if_pos (by simp [hz])]

/-- Witness for C4 at a concrete failing pool query. -/
theorem c4_witness :
    (envPoolFail.results 0).rc ≠ 0 ∧
    main_run envPoolFail ⟨uuid0, "absent", "zones", false⟩ true =
      (.failed ⟨"zpool is not available.", uuid0, "zones", none, none, none⟩,
       ⟨[zpoolListCmd "zones"]⟩) :=
  ⟨by decide,
   c4_pool_not_found envPoolFail ⟨uuid0, "absent", "zones", false⟩ true
     (Or.inr rfl) (by decide) (by decide)⟩

/-- C5 counterexample: the pool query is a command invocation that
fails (exit 1, captured stderr), yet the resulting fatal error record
carries rc=none, stderr=none, stdout=none — the exit code and output
streams are not attached, contrary to the claim that every fatal error
caused by a failed command (including the failed pool query) carries
them. -/
theorem c5_counterexample :
    (envPoolFail.results 0).rc = 1 ∧ (envPoolFail.results 0).err = "cannot open pool" ∧
    main_run envPoolFail ⟨uuid0, "present", "zones", false⟩ false =
      (.failed ⟨"zpool is not available.", uuid0, "zones", none, none, none⟩,
       ⟨[zpoolListCmd "zones"]⟩) :=
  ⟨rfl, rfl, rfl⟩


/-- C5 amended: every fatal error carries a human-readable message,
the uuid and the zpool; the exit code and both captured output streams
are attached exactly for the imgadm command failures that are actually
raised (ImportFailed "Error importing image!" and DeleteFailed "Error
deleting image!") — the failed pool query's error and the InvalidInput
error carry only msg/uuid/zpool, and UpdateFailed is unreachable (the
update call crashes with TypeError first, so no failure record with
its message can occur). -/
theorem c5_amended_thm (env : Env) (p : Params) (check : Bool) (f : FailResult) (s : ExecSt)
    (h : main_run env p check = (.failed f, s)) :
    f.uuid = p.uuid ∧ f.zpool = p.zpool ∧
      (f.msg = "Invalid image UUID." ∨ f.msg = "zpool is not available." ∨
       f.msg = "Error importing image!" ∨ f.msg = "Error deleting image!") ∧
      ((f.rc.isSome = true ∧ f.stderr.isSome = true ∧ f.stdout.isSome = true) ↔
        (f.msg = "Error importing image!" ∨ f.msg = "Error deleting image!")) := by
  rcases main_failed_inv env p check f s h with hf | hf | ⟨sa, hpb⟩ | ⟨l2, s2, sa, hpb, hab⟩
  · subst hf
    refine ⟨rfl, rfl, Or.inl rfl, ?_⟩
    constructor
    · rintro ⟨hc, -, -⟩; exact absurd hc (by simp)
    · rintro (hc | hc) <;> exact absurd hc (by simp)
  · subst hf
    refine ⟨rfl, rfl, Or.inr (Or.inl rfl), ?_⟩
    constructor
    · rintro ⟨hc, -, -⟩; exact absurd hc (by simp)
    · rintro (hc | hc) <;> exact absurd hc (by simp)
  · obtain ⟨hmsg, huuid, hzpool, hrc, herr, hout⟩ := pb_fail_inv _ _ _ _ _ _ hpb
    exact ⟨huuid, hzpool, Or.inr (Or.inr (Or.inl hmsg)),
      ⟨fun _ => Or.inl hmsg, fun _ => ⟨hrc, herr, hout⟩⟩⟩
  · obtain ⟨hmsg, huuid, hzpool, hrc, herr, hout⟩ := ab_fail_inv _ _ _ _ _ _ hab
    obtain ⟨hu2, hs2, hz2, hup2, hiff2⟩ := pb_ok_inv _ _ _ _ _ _ hpb
    exact ⟨(huuid.trans hu2).trans rfl, (hzpool.trans hz2).trans rfl,
      Or.inr (Or.inr (Or.inr hmsg)),
      ⟨fun _ => Or.inr hmsg, fun _ => ⟨hrc, herr, hout⟩⟩⟩

/-- Witness for C5 amended at a concrete failing pool query. -/
theorem c5_amended_witness :
    main_run envPoolFail ⟨uuid0, "absent", "zones", true⟩ false =
      (.failed ⟨"zpool is not available.", uuid0, "zones", none, none, none⟩,
       ⟨[zpoolListCmd "zones"]⟩) ∧
    ((⟨"zpool is not available.", uuid0, "zones", none, none, none⟩ : FailResult).uuid
        = uuid0 ∧
     (⟨"zpool is not available.", uuid0, "zones", none, none, none⟩ : FailResult).zpool
        = "zones" ∧
     ((⟨"zpool is not available.", uuid0, "zones", none, none, none⟩ : FailResult).msg
          = "Invalid image UUID." ∨
      (⟨"zpool is not available.", uuid0, "zones", none, none, none⟩ : FailResult).msg
          = "zpool is not available." ∨
      (⟨"zpool is not available.", uuid0, "zones", none, none, none⟩ : FailResult).msg
          = "Error importing image!" ∨
      (⟨"zpool is not available.", uuid0, "zones", none, none, none⟩ : FailResult).msg
          = "Error deleting image!") ∧
     (((⟨"zpool is not available.", uuid0, "zones", none, none, none⟩ : FailResult).rc.isSome
          = true ∧
       (⟨"zpool is not available.", uuid0, "zones", none, none, none⟩
          : FailResult).stderr.isSome = true ∧
       (⟨"zpool is not available.", uuid0, "zones", none, none, none⟩
          : FailResult).stdout.isSome = true) ↔
       ((⟨"zpool is not available.", uuid0, "zones", none, none, none⟩ : FailResult).msg
           = "Error importing image!" ∨
        (⟨"zpool is not available.", uuid0, "zones", none, none, none⟩ : FailResult).msg
           = "Error deleting image!"))) :=
  ⟨rfl, c5_amended_thm envPoolFail ⟨uuid0, "absent", "zones", true⟩ false
    ⟨"zpool is not available.", uuid0, "zones", none, none, none⟩
    ⟨[zpoolListCmd "zones"]⟩ rfl⟩


theorem pb_check_absent_eq (env : Env) (l : Locals) (s : ExecSt)
    (hst : l.image.state = "present")
    (hrc : (env.results s.calls.length).rc ≠ 0) :
    presentBlock env true l s =
      .ok ({ l with changed := true, manifestField := some fakedManifest, out := "have to download image" },
           ⟨s.calls ++ [infoCmd l.image.zpool l.image.uuid]⟩) := by
  unfold presentBlock
  rw [if_pos hst]
  rw [is_local_absent_eq env l.image s hrc]
  rfl

theorem ab_absent_eq (env : Env) (check : Bool) (l : Locals) (s : ExecSt)
    (hst : l.image.state = "absent")
    (hrc : (env.results s.calls.length).rc ≠ 0) :
    absentBlock env check l s =
      .ok ({ l with out := notFoundMsg l.image.uuid l.image.zpool },
           ⟨s.calls ++ [infoCmd l.image.zpool l.image.uuid]⟩) := by
  unfold absentBlock
  rw [if_pos hst]
  rw [is_local_absent_eq env l.image s hrc]

theorem ab_present_check_eq (env : Env) (l : Locals) (s : ExecSt) (doc m : Json)
    (hst : l.image.state = "absent")
    (hrc : (env.results s.calls.length).rc = 0)
    (hdoc : json_loads (env.results s.calls.length).out = some doc)
    (hm : doc.getKey "manifest" = some m) :
    absentBlock env true l s =
      .ok ({ l with image := { l.image with manifest := m }, changed := true },
           ⟨s.calls ++ [infoCmd l.image.zpool l.image.uuid]⟩) := by
  unfold absentBlock
  rw [if_pos hst]
  rw [is_local_present_eq env l.image s doc m hrc hdoc hm]
  rfl

theorem fin_absent_eq (env : Env) (l : Locals) (s : ExecSt)
    (hrc : (env.results s.calls.length).rc ≠ 0) :
    finalize env l s =
      (.exited ⟨l.changed, l.out, l.err, l.image.uuid, l.image.state, l.image.zpool,
        l.manifestField⟩,
       ⟨s.calls ++ [infoCmd l.image.zpool l.image.uuid]⟩) := by
  unfold finalize
  rw [is_local_absent_eq env l.image s hrc]
  rfl

theorem fin_present_eq (env : Env) (l : Locals) (s : ExecSt) (doc m : Json)
    (hrc : (env.results s.calls.length).rc = 0)
    (hdoc : json_loads (env.results s.calls.length).out = some doc)
    (hm : doc.getKey "manifest" = some m) :
    finalize env l s =
      (.exited ⟨l.changed, l.out, l.err, l.image.uuid, l.image.state, l.image.zpool,
        some m⟩,
       ⟨s.calls ++ [infoCmd l.image.zpool l.image.uuid]⟩) := by
  unfold finalize
  rw [is_local_present_eq env l.image s doc m hrc hdoc hm]
  rfl

theorem main_steps_eq (env : Env) (p : Params) (check : Bool)
    (hstate : p.state = "present" ∨ p.state = "absent")
    (hu : pyMatchAnchored p.uuid = true)
    (hz : (env.results 0).rc = 0) :
    main_run env p check =
      (match presentBlock env check (initLocals p) ⟨[zpoolListCmd p.zpool]⟩ with
       | .error (a, sa) => (a.toOutcome, sa)
       | .ok (l2, s2) =>
         match absentBlock env check l2 s2 with
         | .error (a, sa) => (a.toOutcome, sa)
         | .ok (l3, s3) => finalize env l3 s3) := by
  unfold main_run IMAGE.has_valid_uuid IMAGE.zpool_exists run_command
  dsimp only
  simp only [List.length_nil, List.nil_append]
  rw [if_neg (by rcases hstate with h | h <;> simp [h])]
  rw [if_neg (by simp [hu])]
  rw [if_neg (by simp [hz])]
  rfl



/-- C6: in check (dry-run) mode no mutating operation is invoked.
Scenario (a): state=present with the image absent yields changed=true
and the simulated manifest `{"faked": "True", "reason": "check_mode"}`
(tagged by its "faked" key), with every recorded command non-mutating
(no imgadm import/update/delete).  Scenario (b): state=absent with the
image present yields changed=true and again only non-mutating commands
— in particular the delete operation is never invoked. -/
theorem c6_dry_run_no_mutation (env1 : Env) (p1 : Params) (env2 : Env) (p2 : Params)
    (doc m : Json)
    (ha1 : p1.state = "present") (ha2 : pyMatchAnchored p1.uuid = true)
    (ha3 : (env1.results 0).rc = 0) (ha4 : (env1.results 1).rc ≠ 0)
    (ha5 : (env1.results 2).rc ≠ 0)
    (hb1 : p2.state = "absent") (hb2 : pyMatchAnchored p2.uuid = true)
    (hb3 : (env2.results 0).rc = 0) (hb4 : (env2.results 1).rc = 0)
    (hb5 : json_loads (env2.results 1).out = some doc)
    (hb6 : doc.getKey "manifest" = some m)
    (hb7 : env2.results 2 = env2.results 1) :
    ((main_run env1 p1 true).1.resultOf.map ExitResult.changed = some true ∧
     (main_run env1 p1 true).1.resultOf.map ExitResult.manifest = some (some fakedManifest) ∧
     fakedManifest.getKey "faked" = some (Json.str "True") ∧
     (main_run env1 p1 true).2.calls.all (fun c => !(isMutating c)) = true) ∧
    ((main_run env2 p2 true).1.resultOf.map ExitResult.changed = some true ∧
     (main_run env2 p2 true).2.calls.all (fun c => !(isMutating c)) = true) := by
  have hm1 : main_run env1 p1 true =
      (.exited ⟨true, "have to download image", "", p1.uuid, p1.state, p1.zpool, some fakedManifest⟩,
       ⟨[zpoolListCmd p1.zpool, infoCmd p1.zpool p1.uuid, infoCmd p1.zpool p1.uuid]⟩) := by
    rw [main_steps_eq env1 p1 true (Or.inl ha1) ha2 ha3,
        pb_check_absent_eq env1 (initLocals p1) ⟨[zpoolListCmd p1.zpool]⟩ ha1 ha4]
    dsimp only
    rw [ab_skip env1 true]
    · dsimp only
      rw [fin_absent_eq env1]
      · rfl
      · exact ha5
    · show ¬((initLocals p1).image.state = "absent")
      rw [show (initLocals p1).image.state = p1.state from rfl, ha1]
      simp
  have hm2 : main_run env2 p2 true =
      (.exited ⟨true, "", "", p2.uuid, p2.state, p2.zpool, some m⟩,
       ⟨[zpoolListCmd p2.zpool, infoCmd p2.zpool p2.uuid, infoCmd p2.zpool p2.uuid]⟩) := by
    rw [main_steps_eq env2 p2 true (Or.inr hb1) hb2 hb3]
    rw [pb_skip env2 true]
    · dsimp only
      rw [ab_present_check_eq env2 (initLocals p2) ⟨[zpoolListCmd p2.zpool]⟩ doc m hb1 hb4 hb5 hb6]
      dsimp only
      rw [fin_present_eq env2 _ _ doc m (by simpa [hb7] using hb4) (by simpa [hb7] using hb5) hb6]
      rfl
    · show ¬((initLocals p2).image.state = "present")
      rw [show (initLocals p2).image.state = p2.state from rfl, hb1]
      simp
  refine ⟨⟨?_, ?_, rfl, ?_⟩, ⟨?_, ?_⟩⟩
  · rw [hm1]; rfl
  · rw [hm1]; rfl
  · rw [hm1]
    simp [isMutating, zpoolListCmd, infoCmd, List.all]
  · rw [hm2]; rfl
  · rw [hm2]
    simp [isMutating, zpoolListCmd, infoCmd, List.all]



/-- Witness for C6 at concrete worlds: envAbsent (image never
present) for the present/dry-run scenario and envPresent (image always
present) for the absent/dry-run scenario. -/
theorem c6_witness :
    ((main_run envAbsent ⟨uuid0, "present", "zones", false⟩ true).1.resultOf.map
        ExitResult.changed = some true ∧
     (main_run envAbsent ⟨uuid0, "present", "zones", false⟩ true).1.resultOf.map
        ExitResult.manifest = some (some fakedManifest) ∧
     fakedManifest.getKey "faked" = some (Json.str "True") ∧
     (main_run envAbsent ⟨uuid0, "present", "zones", false⟩ true).2.calls.all
        (fun c => !(isMutating c)) = true) ∧
    ((main_run envPresent ⟨uuid0, "absent", "zones", false⟩ true).1.resultOf.map
        ExitResult.changed = some true ∧
     (main_run envPresent ⟨uuid0, "absent", "zones", false⟩ true).2.calls.all
        (fun c => !(isMutating c)) = true) :=
  c6_dry_run_no_mutation envAbsent ⟨uuid0, "present", "zones", false⟩ envPresent
    ⟨uuid0, "absent", "zones", false⟩ (Json.obj [("manifest", manifestVal)]) manifestVal
    rfl (by decide) rfl (by decide) (by decide)
    rfl (by decide) rfl rfl rfl rfl rfl



theorem notFoundMsg_contains (u z : String) :
    u.data <:+: (notFoundMsg u z).data ∧ z.data <:+: (notFoundMsg u z).data := by
  constructor
  · have he : (notFoundMsg u z).data =
        "Image \"".data ++ u.data ++ ("\" was not found on zpool \"" ++ z ++ "\".").data := by
      simp [notFoundMsg, String.data_append, List.append_assoc]
    rw [he]
    exact List.infix_append _ _ _
  · have he : (notFoundMsg u z).data =
        ("Image \"" ++ u ++ "\" was not found on zpool \"").data ++ z.data ++ "\".".data := by
      simp [notFoundMsg, String.data_append, List.append_assoc]
    rw [he]
    exact List.infix_append _ _ _

/-- C8: a run with state=absent whose branch info probe exits
non-zero (image not locally present) that completes reports
changed=false, and its stdout is the message
`Image "<uuid>" was not found on zpool "<zpool>".`, which cites both
the uuid and the zpool (both occur as substrings). -/
theorem c8_absent_unchanged (env : Env) (p : Params) (check : Bool) (r : ExitResult)
    (s : ExecSt) (hstate : p.state = "absent") (hprobe : (env.results 1).rc ≠ 0)
    (h : main_run env p check = (.exited r, s)) :
    r.changed = false ∧ r.stdout = notFoundMsg p.uuid p.zpool ∧
      p.uuid.data <:+: r.stdout.data ∧ p.zpool.data <:+: r.stdout.data := by
  obtain ⟨hval, hu, hz, l2, s2, l3, s3, hpb, hab, hfin⟩ := main_exited_inv env p check r s h
  have hskip := pb_skip env check (initLocals p) ⟨[zpoolListCmd p.zpool]⟩
    (by show ¬(p.state = "present"); rw [hstate]; simp)
  rw [hskip] at hpb
  injection hpb with hpb2
  obtain ⟨rfl, rfl⟩ := Prod.mk.inj hpb2
  have habs := ab_absent_eq env check (initLocals p) ⟨[zpoolListCmd p.zpool]⟩ hstate hprobe
  rw [habs] at hab
  injection hab with hab2
  obtain ⟨rfl, rfl⟩ := Prod.mk.inj hab2
  obtain ⟨hch, hout, herr, -, -, -, -, -⟩ := fin_exited_inv env _ _ r s hfin
  refine ⟨hch, hout, ?_, ?_⟩
  · rw [hout]
    exact (notFoundMsg_contains p.uuid p.zpool).1
  · rw [hout]
    exact (notFoundMsg_contains p.uuid p.zpool).2

/-- Witness for C8 at a concrete absent image. -/
theorem c8_witness :
    main_run envAbsent ⟨uuid0, "absent", "zones", false⟩ false =
      (.exited ⟨false, notFoundMsg uuid0 "zones", "", uuid0, "absent", "zones", none⟩,
       ⟨[zpoolListCmd "zones", infoCmd "zones" uuid0, infoCmd "zones" uuid0]⟩) ∧
    ((false : Bool) = false ∧ notFoundMsg uuid0 "zones" = notFoundMsg uuid0 "zones" ∧
      uuid0.data <:+: (notFoundMsg uuid0 "zones").data ∧
      "zones".data <:+: (notFoundMsg uuid0 "zones").data) :=
  ⟨rfl,
   c8_absent_unchanged envAbsent ⟨uuid0, "absent", "zones", false⟩ false
     ⟨false, notFoundMsg uuid0 "zones", "", uuid0, "absent", "zones", none⟩
     ⟨[zpoolListCmd "zones", infoCmd "zones" uuid0, infoCmd "zones" uuid0]⟩
     rfl (by decide) rfl⟩



/-- C9: for every run that completes without a fatal error,
changed=true holds iff either (a) check mode with state=present and a
non-zero branch probe (image absent), or (b) state=absent with a zero
branch probe (image present); in every other completing run — in
particular a normal-mode import — changed=false. -/
theorem c9_changed_iff (env : Env) (p : Params) (check : Bool) (r : ExitResult) (s : ExecSt)
    (h : main_run env p check = (.exited r, s)) :
    r.changed = true ↔
      ((check = true ∧ p.state = "present" ∧ (env.results 1).rc ≠ 0) ∨
       (p.state = "absent" ∧ (env.results 1).rc = 0)) := by
  obtain ⟨hval, hu, hz, l2, s2, l3, s3, hpb, hab, hfin⟩ := main_exited_inv env p check r s h
  obtain ⟨hch, -, -, -, -, -, -, -⟩ := fin_exited_inv env _ _ r s hfin
  rcases hval with hp | hp
  · obtain ⟨hu2, hs2, hz2, hup2, hiff2⟩ := pb_ok_inv _ _ _ _ _ _ hpb
    have hskip := ab_skip env check l2 s2
      (by rw [hs2]; show ¬(p.state = "absent"); rw [hp]; simp)
    rw [hskip] at hab
    injection hab with hab2
    obtain ⟨rfl, rfl⟩ := Prod.mk.inj hab2
    rw [hch, hiff2]
    constructor
    · rintro (hfalse | hc)
      · exact absurd hfalse (by simp [initLocals])
      · exact Or.inl ⟨hc.1, hc.2.1, hc.2.2⟩
    · rintro (⟨h1, h2, h3⟩ | ⟨h1, h2⟩)
      · exact Or.inr ⟨h1, h2, h3⟩
      · rw [hp] at h1; exact absurd h1 (by simp)
  · have hskip := pb_skip env check (initLocals p) ⟨[zpoolListCmd p.zpool]⟩
      (by show ¬(p.state = "present"); rw [hp]; simp)
    rw [hskip] at hpb
    injection hpb with hpb2
    obtain ⟨rfl, rfl⟩ := Prod.mk.inj hpb2
    obtain ⟨hu2, hs2, hz2, hup2, hiff2⟩ := ab_ok_inv _ _ _ _ _ _ hab
    rw [hch, hiff2]
    constructor
    · rintro (hfalse | hc)
      · exact absurd hfalse (by simp [initLocals])
      · exact Or.inr ⟨hp, hc.2⟩
    · rintro (⟨h1, h2, h3⟩ | ⟨h1, h2⟩)
      · rw [hp] at h2; exact absurd h2 (by simp)
      · exact Or.inr ⟨h1, h2⟩

/-- Witness for C9 at a concrete completing run (state=absent,
image absent: changed=false and both disjuncts false). -/
theorem c9_witness :
    main_run envAbsent ⟨uuid0, "absent", "zones", false⟩ false =
      (.exited ⟨false, notFoundMsg uuid0 "zones", "", uuid0, "absent", "zones", none⟩,
       ⟨[zpoolListCmd "zones", infoCmd "zones" uuid0, infoCmd "zones" uuid0]⟩) ∧
    ((false : Bool) = true ↔
      ((false = true ∧ ("absent" : String) = "present" ∧ (envAbsent.results 1).rc ≠ 0) ∨
       (("absent" : String) = "absent" ∧ (envAbsent.results 1).rc = 0))) :=
  ⟨rfl,
   c9_changed_iff envAbsent ⟨uuid0, "absent", "zones", false⟩ false
     ⟨false, notFoundMsg uuid0 "zones", "", uuid0, "absent", "zones", none⟩
     ⟨[zpoolListCmd "zones", infoCmd "zones" uuid0, infoCmd "zones" uuid0]⟩ rfl⟩



/-- C7: every run that exits without a fatal error reports uuid,
state and zpool from the request, the trace is nonempty and ends with
the final `imgadm info` re-probe; and the finalization step includes
the captured stdout/stderr strings in the result and attaches (i.e.
writes) the manifest field exactly when the final probe reports the
image present — on a present probe the manifest equals the probed
document's manifest, on an absent probe the manifest entry is left as
it was (so the only manifest in the result of a non-dry-run is the
probed one). -/
theorem c7_result_fields :
    (∀ env p check r s, main_run env p check = (.exited r, s) →
      r.uuid = p.uuid ∧ r.state = p.state ∧ r.zpool = p.zpool ∧
      s.calls ≠ [] ∧ s.calls.getLast? = some (infoCmd p.zpool p.uuid)) ∧
    (∀ env l s r s', finalize env l s = (.exited r, s') →
      r.stdout = l.out ∧ r.stderr = l.err ∧
      ((env.results s.calls.length).rc = 0 →
        ∃ doc m, json_loads (env.results s.calls.length).out = some doc ∧
          doc.getKey "manifest" = some m ∧ r.manifest = some m) ∧
      ((env.results s.calls.length).rc ≠ 0 → r.manifest = l.manifestField)) := by
  constructor
  · intro env p check r s h
    obtain ⟨hval, hu, hz, l2, s2, l3, s3, hpb, hab, hfin⟩ := main_exited_inv env p check r s h
    obtain ⟨-, -, -, hru, hrs, hrz, hs', -⟩ := fin_exited_inv env _ _ r s hfin
    obtain ⟨hu2, hs2, hz2, -, -⟩ := pb_ok_inv _ _ _ _ _ _ hpb
    obtain ⟨hu3, hs3, hz3, -, -⟩ := ab_ok_inv _ _ _ _ _ _ hab
    have huu : l3.image.uuid = p.uuid := (hu3.trans hu2).trans rfl
    have hss : l3.image.state = p.state := (hs3.trans hs2).trans rfl
    have hzz : l3.image.zpool = p.zpool := (hz3.trans hz2).trans rfl
    subst hs'
    refine ⟨hru.trans huu, hrs.trans hss, hrz.trans hzz, by simp, ?_⟩
    rw [List.getLast?_concat]
    rw [huu, hzz]
  · intro env l s r s' h
    obtain ⟨-, hout, herr, -, -, -, -, hman⟩ := fin_exited_inv env l s r s' h
    refine ⟨hout, herr, ?_, hman⟩
    intro hrc
    exact fin_present_manifest env l s r s' h hrc

/-- Witness for C7: a completed dry-run import plus a concrete
finalization with an absent final probe. -/
theorem c7_witness :
    main_run envAbsent ⟨uuid0, "present", "zones", false⟩ true =
      (.exited ⟨true, "have to download image", "", uuid0, "present", "zones",
        some fakedManifest⟩,
       ⟨[zpoolListCmd "zones", infoCmd "zones" uuid0, infoCmd "zones" uuid0]⟩) ∧
    (uuid0 = uuid0 ∧ ("present" : String) = "present" ∧ ("zones" : String) = "zones" ∧
      ([zpoolListCmd "zones", infoCmd "zones" uuid0, infoCmd "zones" uuid0] :
        List (List String)) ≠ [] ∧
      ([zpoolListCmd "zones", infoCmd "zones" uuid0, infoCmd "zones" uuid0] :
        List (List String)).getLast? = some (infoCmd "zones" uuid0)) ∧
    (finalize envAbsent (initLocals ⟨uuid0, "absent", "zones", false⟩)
        ⟨[zpoolListCmd "zones"]⟩ =
      (.exited ⟨false, "", "", uuid0, "absent", "zones", none⟩,
       ⟨[zpoolListCmd "zones", infoCmd "zones" uuid0]⟩) ∧
     ("" : String) = "" ∧ ("" : String) = "" ∧
     (none : Option Json) = none) :=
  ⟨rfl,
   c7_result_fields.1 envAbsent ⟨uuid0, "present", "zones", false⟩ true
     ⟨true, "have to download image", "", uuid0, "present", "zones", some fakedManifest⟩
     ⟨[zpoolListCmd "zones", infoCmd "zones" uuid0, infoCmd "zones" uuid0]⟩ rfl,
   rfl,
   (c7_result_fields.2 envAbsent (initLocals ⟨uuid0, "absent", "zones", false⟩)
     ⟨[zpoolListCmd "zones"]⟩ ⟨false, "", "", uuid0, "absent", "zones", none⟩
     ⟨[zpoolListCmd "zones", infoCmd "zones" uuid0]⟩ rfl).1,
   (c7_result_fields.2 envAbsent (initLocals ⟨uuid0, "absent", "zones", false⟩)
     ⟨[zpoolListCmd "zones"]⟩ ⟨false, "", "", uuid0, "absent", "zones", none⟩
     ⟨[zpoolListCmd "zones", infoCmd "zones" uuid0]⟩ rfl).2.1,
   (c7_result_fields.2 envAbsent (initLocals ⟨uuid0, "absent", "zones", false⟩)
     ⟨[zpoolListCmd "zones"]⟩ ⟨false, "", "", uuid0, "absent", "zones", none⟩
     ⟨[zpoolListCmd "zones", infoCmd "zones" uuid0]⟩ rfl).2.2.2 (by decide)⟩



/-- A consumer eats a determined prefix: appending input leaves the
appended part in the remainder. -/
def consumes (f : List Char → Option (List Char)) : Prop :=
  ∀ xs rest ys, f xs = some rest → f (xs ++ ys) = some (rest ++ ys)

theorem consumes_bind (f g : List Char → Option (List Char))
    (hf : consumes f) (hg : consumes g) : consumes (fun xs => f xs >>= g) := by
  intro xs rest ys h
  dsimp only at h ⊢
  rcases hf1 : f xs with _ | mid
  · rw [hf1] at h; simp at h
  · rw [hf1] at h
    have hgm : g mid = some rest := h
    rw [hf xs mid ys hf1]
    show g (mid ++ ys) = some (rest ++ ys)
    exact hg mid rest ys hgm

theorem hexRun_consumes (n : Nat) : consumes (hexRun n) := by
  induction n with
  | zero =>
    intro xs rest ys h
    injection h with h2
    subst h2
    rfl
  | succ n ih =>
    intro xs rest ys h
    cases xs with
    | nil => exact absurd h (by simp [hexRun])
    | cons c xs2 =>
      by_cases hc : isLowerHex c
      · simp only [List.cons_append, hexRun, hc, if_true] at h ⊢
        exact ih xs2 rest ys h
      · simp [hexRun, hc] at h

theorem dashThen_consumes : consumes dashThen := by
  intro xs rest ys h
  unfold dashThen at h
  split at h
  · injection h with h2
    subst h2
    rfl
  · exact absurd h (by simp)

theorem uuidBody_consumes : consumes uuidBody := by
  have h1 := consumes_bind _ _ (hexRun_consumes 8) dashThen_consumes
  have h2 := consumes_bind _ _ h1 (hexRun_consumes 4)
  have h3 := consumes_bind _ _ h2 dashThen_consumes
  have h4 := consumes_bind _ _ h3 (hexRun_consumes 4)
  have h5 := consumes_bind _ _ h4 dashThen_consumes
  have h6 := consumes_bind _ _ h5 (hexRun_consumes 4)
  have h7 := consumes_bind _ _ h6 dashThen_consumes
  have h8 := consumes_bind _ _ h7 (hexRun_consumes 12)
  intro xs rest ys h
  exact h8 xs rest ys h

theorem pyMatch_of_canonical_newline (u : String) (h : canonicalUuidMatch u = true) :
    pyMatchAnchored (u ++ "\n") = true := by
  have h2 : uuidBody u.data = some [] := of_decide_eq_true h
  have h3 : uuidBody (u.data ++ ['\n']) = some ([] ++ ['\n']) :=
    uuidBody_consumes u.data [] ['\n'] h2
  unfold pyMatchAnchored
  have hd : (u ++ "\n").data = u.data ++ ['\n'] := by
    rw [String.data_append]
  rw [hd, h3]
  rfl



theorem pb_ok_pfx (env : Env) (check : Bool) (l : Locals) (s : ExecSt) (l' : Locals)
    (s' : ExecSt) (h : presentBlock env check l s = .ok (l', s')) :
    s.calls <+: s'.calls := by
  unfold presentBlock IMAGE.import_image run_command at h
  dsimp only at h
  repeat' split at h
  all_goals first
    | (injection h with h2
       obtain ⟨rfl, rfl⟩ := Prod.mk.inj h2
       first
         | exact List.prefix_rfl
         | simp [is_local_snd, List.append_assoc])
    | injection h

theorem pb_err_pfx (env : Env) (check : Bool) (l : Locals) (s : ExecSt) (a : Abort)
    (sa : ExecSt) (h : presentBlock env check l s = .error (a, sa)) :
    s.calls <+: sa.calls := by
  unfold presentBlock IMAGE.import_image run_command at h
  dsimp only at h
  repeat' split at h
  all_goals first
    | (injection h with h2
       obtain ⟨rfl, rfl⟩ := Prod.mk.inj h2
       first
         | exact List.prefix_rfl
         | simp [is_local_snd, List.append_assoc])
    | injection h

theorem ab_ok_pfx (env : Env) (check : Bool) (l : Locals) (s : ExecSt) (l' : Locals)
    (s' : ExecSt) (h : absentBlock env check l s = .ok (l', s')) :
    s.calls <+: s'.calls := by
  unfold absentBlock IMAGE.delete run_command at h
  dsimp only at h
  repeat' split at h
  all_goals first
    | (injection h with h2
       obtain ⟨rfl, rfl⟩ := Prod.mk.inj h2
       first
         | exact List.prefix_rfl
         | simp [is_local_snd, List.append_assoc])
    | injection h

theorem ab_err_pfx (env : Env) (check : Bool) (l : Locals) (s : ExecSt) (a : Abort)
    (sa : ExecSt) (h : absentBlock env check l s = .error (a, sa)) :
    s.calls <+: sa.calls := by
  unfold absentBlock IMAGE.delete run_command at h
  dsimp only at h
  repeat' split at h
  all_goals first
    | (injection h with h2
       obtain ⟨rfl, rfl⟩ := Prod.mk.inj h2
       first
         | exact List.prefix_rfl
         | simp [is_local_snd, List.append_assoc])
    | injection h

theorem fin_pfx (env : Env) (l : Locals) (s : ExecSt) :
    s.calls <+: (finalize env l s).2.calls := by
  unfold finalize
  dsimp only
  rcases hil : (IMAGE.is_local env l.image s).1 with e | ⟨b, img⟩ <;>
    simp [is_local_snd]



/-- C10: the UUID validation accepts a canonical UUID followed by a
single trailing newline (Python `re.match` lets `$` match before a
final newline), so such an input does not fail with InvalidInput (no
failure record with that message can arise) and the reconciler
proceeds to external invocations (the first recorded command is the
pool query). -/
theorem c10_newline_accepted (u : String) (env : Env) (p : Params) (check : Bool)
    (hs : canonicalUuidMatch u = true) (hu : p.uuid = u ++ "\n")
    (hstate : p.state = "present" ∨ p.state = "absent") :
    IMAGE.has_valid_uuid ⟨p.uuid, p.state, p.zpool, p.update, Json.str "init"⟩ = true ∧
    (main_run env p check).2.calls.take 1 = [zpoolListCmd p.zpool] ∧
    (∀ f s', main_run env p check = (.failed f, s') → f.msg ≠ "Invalid image UUID.") := by
  have hv : pyMatchAnchored p.uuid = true := by
    rw [hu]; exact pyMatch_of_canonical_newline u hs
  refine ⟨hv, ?_, ?_⟩
  · by_cases hz : (env.results 0).rc = 0
    · rw [main_steps_eq env p check hstate hv hz]
      rcases hpb : presentBlock env check (initLocals p) ⟨[zpoolListCmd p.zpool]⟩
        with ⟨a, sa⟩ | ⟨l2, s2⟩
      · obtain ⟨t, ht⟩ := pb_err_pfx _ _ _ _ _ _ hpb
        cases a <;> dsimp only [Abort.toOutcome] <;> rw [← ht] <;> simp
      · have hpfx2 := pb_ok_pfx _ _ _ _ _ _ hpb
        dsimp only
        rcases hab : absentBlock env check l2 s2 with ⟨a, sa⟩ | ⟨l3, s3⟩
        · obtain ⟨t, ht⟩ := hpfx2.trans (ab_err_pfx _ _ _ _ _ _ hab)
          cases a <;> dsimp only [Abort.toOutcome] <;> rw [← ht] <;> simp
        · obtain ⟨t, ht⟩ := (hpfx2.trans (ab_ok_pfx _ _ _ _ _ _ hab)).trans (fin_pfx env l3 s3)
          dsimp only
          rw [← ht]
          simp
    · rw [c4_pool_not_found env p check hstate hv hz]
      rfl
  · intro f s' hf
    by_cases hz : (env.results 0).rc = 0
    · rw [main_steps_eq env p check hstate hv hz] at hf
      rcases hpb : presentBlock env check (initLocals p) ⟨[zpoolListCmd p.zpool]⟩
        with ⟨a, sa⟩ | ⟨l2, s2⟩
      · rw [hpb] at hf
        dsimp only at hf
        cases a with
        | failJson f2 =>
          dsimp only [Abort.toOutcome] at hf
          obtain ⟨hf1, rfl⟩ := Prod.mk.inj hf
          injection hf1 with hf2
          subst hf2
          have hm := (pb_fail_inv _ _ _ _ _ _ hpb).1
          rw [hm]; simp
        | pyExc m =>
          dsimp only [Abort.toOutcome] at hf
          exact absurd hf (by simp)
      · rw [hpb] at hf
        dsimp only at hf
        rcases hab : absentBlock env check l2 s2 with ⟨a, sa⟩ | ⟨l3, s3⟩
        · rw [hab] at hf
          dsimp only at hf
          cases a with
          | failJson f2 =>
            dsimp only [Abort.toOutcome] at hf
            obtain ⟨hf1, rfl⟩ := Prod.mk.inj hf
            injection hf1 with hf2
            subst hf2
            have hm := (ab_fail_inv _ _ _ _ _ _ hab).1
            rw [hm]; simp
          | pyExc m =>
            dsimp only [Abort.toOutcome] at hf
            exact absurd hf (by simp)
        · rw [hab] at hf
          dsimp only at hf
          exact absurd hf (fin_no_fail env l3 s3 f s')
    · rw [c4_pool_not_found env p check hstate hv hz] at hf
      obtain ⟨hf1, rfl⟩ := Prod.mk.inj hf
      injection hf1 with hf2
      subst hf2
      simp

/-- Witness for C10 at the concrete input uuid0 ++ "\n". -/
theorem c10_witness :
    IMAGE.has_valid_uuid ⟨uuid0 ++ "\n", "absent", "zones", false, Json.str "init"⟩ = true ∧
    (main_run envAbsent ⟨uuid0 ++ "\n", "absent", "zones", false⟩ false).2.calls.take 1 =
      [zpoolListCmd "zones"] ∧
    (∀ f s', main_run envAbsent ⟨uuid0 ++ "\n", "absent", "zones", false⟩ false =
      (.failed f, s') → f.msg ≠ "Invalid image UUID.") :=
  c10_newline_accepted uuid0 envAbsent ⟨uuid0 ++ "\n", "absent", "zones", false⟩ false
    (by decide) rfl (Or.inr rfl)


end SmartosImage
